import Mathlib

/-!
Verification of calculate-uploadthiing-costs.py.

The script is a single pure function plus a top-level call and print.
Python numbers are modelled as exact rationals (ℚ); Python's built-in
round (round half to even) is modelled explicitly.
-/

namespace UploadThing

/-- Python's built-in round to the nearest integer: ties go to the even
integer (banker's rounding). -/
def roundHalfEven (q : ℚ) : ℤ :=
  if q - ⌊q⌋ < 1/2 then ⌊q⌋
  else if 1/2 < q - ⌊q⌋ then ⌊q⌋ + 1
  else if 2 ∣ ⌊q⌋ then ⌊q⌋ else ⌊q⌋ + 1

/-- Python's round(x, 2): round to 2 decimal places, half to even. -/
def round2 (q : ℚ) : ℚ := (roundHalfEven (q * 100) : ℚ) / 100

/-- The estimator from calculate-uploadthiing-costs.py, lines 1-16.
Counts are integers (per the source annotations), sizes and the rate are
rationals; the rate defaults to 0.20 as in the source. -/
def estimate_uploadthing_cost (videos_per_week : ℤ) (video_size_mb : ℚ)
    (images_per_week : ℤ) (image_size_mb : ℚ)
    (cost_per_gb : ℚ := 0.20) : ℚ :=
  let MB_PER_GB : ℚ := 1024
  let weeks_per_month : ℚ := 4
  let monthly_upload_gb :=
    (videos_per_week * video_size_mb + images_per_week * image_size_mb)
      * weeks_per_month / MB_PER_GB
  let monthly_cost := monthly_upload_gb * cost_per_gb
  round2 monthly_cost

/-- The estimator with Python's division modelled as fallible (Python
raises ZeroDivisionError on division by zero), to show the error path is
unreachable. -/
def estimate_uploadthing_cost_checked (videos_per_week : ℤ)
    (video_size_mb : ℚ) (images_per_week : ℤ) (image_size_mb : ℚ)
    (cost_per_gb : ℚ) : Option ℚ :=
  let MB_PER_GB : ℚ := 1024
  let weeks_per_month : ℚ := 4
  if MB_PER_GB = 0 then none
  else
    some (round2
      ((videos_per_week * video_size_mb + images_per_week * image_size_mb)
        * weeks_per_month / MB_PER_GB * cost_per_gb))

/-- Render an integer number of cents the way Python's str prints the
corresponding float value (shortest form: trailing fractional zeros are
dropped, but at least one fractional digit is kept). -/
def formatCents (n : ℤ) : String :=
  let sign := if n < 0 then "-" else ""
  let m := n.natAbs
  let ip := m / 100
  let fp := m % 100
  let fracStr :=
    if fp = 0 then "0"
    else if fp % 10 = 0 then toString (fp / 10)
    else if fp < 10 then "0" ++ toString fp
    else toString fp
  sign ++ toString ip ++ "." ++ fracStr

/-- Render a rational that is a whole number of cents the way Python
prints the float. -/
def formatCost (q : ℚ) : String := formatCents ⌊q * 100⌋

/-- Line 19 of the script: the top-level call with the sample inputs,
the rate left to its default. -/
def cost : ℚ := estimate_uploadthing_cost 10 800 10 1

/-- Line 20 of the script: the single line printed to standard output. -/
def outputLine : String := "Estimated monthly UploadThing cost: $" ++ formatCost cost

theorem estimate_eq (v : ℤ) (s : ℚ) (i : ℤ) (m r : ℚ) :
    estimate_uploadthing_cost v s i m r =
      round2 ((v * s + i * m) * 4 / 1024 * r) := rfl

theorem roundHalfEven_le (q : ℚ) : roundHalfEven q ≤ ⌊q⌋ + 1 := by
  unfold roundHalfEven
  split_ifs <;> omega

theorem le_roundHalfEven (q : ℚ) : ⌊q⌋ ≤ roundHalfEven q := by
  unfold roundHalfEven
  split_ifs <;> omega

theorem roundHalfEven_mono {q q' : ℚ} (h : q ≤ q') :
    roundHalfEven q ≤ roundHalfEven q' := by
  have hf : ⌊q⌋ ≤ ⌊q'⌋ := Int.floor_le_floor h
  rcases eq_or_lt_of_le hf with heq | hlt
  · have hfr : q - (⌊q⌋ : ℚ) ≤ q' - (⌊q⌋ : ℚ) := by linarith
    unfold roundHalfEven
    rw [← heq]
    split_ifs <;> first | omega | (exfalso; linarith)
  · have h1 := roundHalfEven_le q
    have h2 := le_roundHalfEven q'
    omega

theorem round2_mono {q q' : ℚ} (h : q ≤ q') : round2 q ≤ round2 q' := by
  unfold round2
  have h1 : roundHalfEven (q * 100) ≤ roundHalfEven (q' * 100) :=
    roundHalfEven_mono (by linarith)
  have h2 : ((roundHalfEven (q * 100) : ℤ) : ℚ) ≤ ((roundHalfEven (q' * 100) : ℤ) : ℚ) := by
    exact_mod_cast h1
  linarith

theorem round2_nonneg {q : ℚ} (h : 0 ≤ q) : 0 ≤ round2 q := by
  unfold round2
  have h1 : (0 : ℤ) ≤ ⌊q * 100⌋ := Int.floor_nonneg.mpr (by positivity)
  have h2 : (0 : ℤ) ≤ roundHalfEven (q * 100) := le_trans h1 (le_roundHalfEven _)
  have h3 : (0 : ℚ) ≤ ((roundHalfEven (q * 100) : ℤ) : ℚ) := by exact_mod_cast h2
  positivity

theorem scale_mono {x y r : ℚ} (hx : x ≤ y) (hr : 0 ≤ r) :
    x * 4 / 1024 * r ≤ y * 4 / 1024 * r := by
  have h1 : x * 4 / 1024 ≤ y * 4 / 1024 := by linarith
  exact mul_le_mul_of_nonneg_right h1 hr

theorem cost_eq : cost = 313/50 := by
  have h1 : cost = round2 (801/128) := by
    rw [show cost = estimate_uploadthing_cost 10 800 10 1 0.20 from rfl, estimate_eq]
    norm_num
  rw [h1]
  unfold round2 roundHalfEven
  norm_num

theorem outputLine_eq : outputLine = "Estimated monthly UploadThing cost: $6.26" := by
  have h2 : ⌊cost * 100⌋ = 626 := by rw [cost_eq]; norm_num
  show "Estimated monthly UploadThing cost: $" ++ formatCents ⌊cost * 100⌋ = _
  rw [h2]
  decide

/-- Claim C1: the no-argument run calls the estimator with the sample
inputs and the default rate 0.20, obtains the rounded result 6.26, and
the single printed line is exactly
"Estimated monthly UploadThing cost: $6.26". -/
theorem no_args_run_prints_626 :
    cost = estimate_uploadthing_cost 10 800 10 1 0.20 ∧
    cost = 6.26 ∧
    outputLine = "Estimated monthly UploadThing cost: $6.26" :=
  ⟨rfl, by rw [cost_eq]; norm_num, outputLine_eq⟩

/-- Claim C2: the estimator returns round(((v*s + i*m) * 4 / 1024) * r, 2),
with weekly megabytes summed first, then times 4 weeks, then divided by
1024, then times the rate, then rounded to 2 decimal places. -/
theorem estimate_formula (v : ℤ) (s : ℚ) (i : ℤ) (m r : ℚ) :
    estimate_uploadthing_cost v s i m r =
      round2 ((((v * s + i * m) * 4) / 1024) * r) := rfl

/-- Claim C3: for non-negative inputs, increasing any single argument
while holding the other four fixed never decreases the result. -/
theorem estimate_mono :
    (∀ (v v' : ℤ) (s : ℚ) (i : ℤ) (m r : ℚ), 0 ≤ v → 0 ≤ s → 0 ≤ i → 0 ≤ m → 0 ≤ r →
      v ≤ v' → estimate_uploadthing_cost v s i m r ≤ estimate_uploadthing_cost v' s i m r) ∧
    (∀ (v : ℤ) (s s' : ℚ) (i : ℤ) (m r : ℚ), 0 ≤ v → 0 ≤ s → 0 ≤ i → 0 ≤ m → 0 ≤ r →
      s ≤ s' → estimate_uploadthing_cost v s i m r ≤ estimate_uploadthing_cost v s' i m r) ∧
    (∀ (v : ℤ) (s : ℚ) (i i' : ℤ) (m r : ℚ), 0 ≤ v → 0 ≤ s → 0 ≤ i → 0 ≤ m → 0 ≤ r →
      i ≤ i' → estimate_uploadthing_cost v s i m r ≤ estimate_uploadthing_cost v s i' m r) ∧
    (∀ (v : ℤ) (s : ℚ) (i : ℤ) (m m' r : ℚ), 0 ≤ v → 0 ≤ s → 0 ≤ i → 0 ≤ m → 0 ≤ r →
      m ≤ m' → estimate_uploadthing_cost v s i m r ≤ estimate_uploadthing_cost v s i m' r) ∧
    (∀ (v : ℤ) (s : ℚ) (i : ℤ) (m r r' : ℚ), 0 ≤ v → 0 ≤ s → 0 ≤ i → 0 ≤ m → 0 ≤ r →
      r ≤ r' → estimate_uploadthing_cost v s i m r ≤ estimate_uploadthing_cost v s i m r') := by
  refine ⟨?_, ?_, ?_, ?_, ?_⟩
  · intro v v' s i m r _ hs _ _ hr hvv
    rw [estimate_eq, estimate_eq]
    apply round2_mono
    apply scale_mono _ hr
    have hvv' : ((v : ℚ)) ≤ ((v' : ℚ)) := by exact_mod_cast hvv
    have := mul_le_mul_of_nonneg_right hvv' hs
    linarith
  · intro v s s' i m r hv _ _ _ hr hss
    rw [estimate_eq, estimate_eq]
    apply round2_mono
    apply scale_mono _ hr
    have hv' : (0 : ℚ) ≤ ((v : ℚ)) := by exact_mod_cast hv
    have := mul_le_mul_of_nonneg_left hss hv'
    linarith
  · intro v s i i' m r _ _ _ hm hr hii
    rw [estimate_eq, estimate_eq]
    apply round2_mono
    apply scale_mono _ hr
    have hii' : ((i : ℚ)) ≤ ((i' : ℚ)) := by exact_mod_cast hii
    have := mul_le_mul_of_nonneg_right hii' hm
    linarith
  · intro v s i m m' r _ _ hi _ hr hmm
    rw [estimate_eq, estimate_eq]
    apply round2_mono
    apply scale_mono _ hr
    have hi' : (0 : ℚ) ≤ ((i : ℚ)) := by exact_mod_cast hi
    have := mul_le_mul_of_nonneg_left hmm hi'
    linarith
  · intro v s i m r r' hv hs hi hm _ hrr
    rw [estimate_eq, estimate_eq]
    apply round2_mono
    have hv' : (0 : ℚ) ≤ ((v : ℚ)) := by exact_mod_cast hv
    have hi' : (0 : ℚ) ≤ ((i : ℚ)) := by exact_mod_cast hi
    have hbase : (0 : ℚ) ≤ ((v : ℚ) * s + (i : ℚ) * m) * 4 / 1024 :=
      div_nonneg (mul_nonneg (add_nonneg (mul_nonneg hv' hs) (mul_nonneg hi' hm))
        (by norm_num)) (by norm_num)
    exact mul_le_mul_of_nonneg_left hrr hbase

theorem estimate_mono_witness :
    estimate_uploadthing_cost 0 1 0 1 1 ≤ estimate_uploadthing_cost 1 1 0 1 1 ∧
    estimate_uploadthing_cost 1 1 0 1 1 ≤ estimate_uploadthing_cost 1 2 0 1 1 ∧
    estimate_uploadthing_cost 1 1 0 1 1 ≤ estimate_uploadthing_cost 1 1 1 1 1 ∧
    estimate_uploadthing_cost 1 1 1 1 1 ≤ estimate_uploadthing_cost 1 1 1 2 1 ∧
    estimate_uploadthing_cost 1 1 1 1 1 ≤ estimate_uploadthing_cost 1 1 1 1 2 :=
  ⟨estimate_mono.1 0 1 1 0 1 1 (by decide) (by norm_num) (by decide) (by norm_num)
      (by norm_num) (by decide),
   estimate_mono.2.1 1 1 2 0 1 1 (by decide) (by norm_num) (by decide) (by norm_num)
      (by norm_num) (by norm_num),
   estimate_mono.2.2.1 1 1 0 1 1 1 (by decide) (by norm_num) (by decide) (by norm_num)
      (by norm_num) (by decide),
   estimate_mono.2.2.2.1 1 1 1 1 2 1 (by decide) (by norm_num) (by decide) (by norm_num)
      (by norm_num) (by norm_num),
   estimate_mono.2.2.2.2 1 1 1 1 1 2 (by decide) (by norm_num) (by decide) (by norm_num)
      (by norm_num) (by norm_num)⟩

/-- Claim C4: with all counts and sizes zero the estimator returns 0
for every rate. -/
theorem estimate_zero (r : ℚ) : estimate_uploadthing_cost 0 0 0 0 r = 0 := by
  rw [estimate_eq]
  have h0 : (((0 : ℤ) : ℚ) * 0 + ((0 : ℤ) : ℚ) * 0) * 4 / 1024 * r = 0 := by
    norm_num
  rw [h0]
  unfold round2 roundHalfEven
  norm_num

/-- Claim C5: for non-negative inputs the result is non-negative. -/
theorem estimate_nonneg (v : ℤ) (s : ℚ) (i : ℤ) (m r : ℚ)
    (hv : 0 ≤ v) (hs : 0 ≤ s) (hi : 0 ≤ i) (hm : 0 ≤ m) (hr : 0 ≤ r) :
    0 ≤ estimate_uploadthing_cost v s i m r := by
  rw [estimate_eq]
  apply round2_nonneg
  have hv' : (0 : ℚ) ≤ ((v : ℚ)) := by exact_mod_cast hv
  have hi' : (0 : ℚ) ≤ ((i : ℚ)) := by exact_mod_cast hi
  exact mul_nonneg (div_nonneg (mul_nonneg (add_nonneg (mul_nonneg hv' hs)
    (mul_nonneg hi' hm)) (by norm_num)) (by norm_num)) hr

theorem estimate_nonneg_witness : 0 ≤ estimate_uploadthing_cost 10 800 10 1 1 :=
  estimate_nonneg 10 800 10 1 1 (by decide) (by norm_num) (by decide)
    (by norm_num) (by norm_num)

/-- Claim C6: the result is always an integer multiple of 0.01. -/
theorem estimate_two_decimals (v : ℤ) (s : ℚ) (i : ℤ) (m r : ℚ) :
    ∃ n : ℤ, estimate_uploadthing_cost v s i m r = (n : ℚ) / 100 :=
  ⟨roundHalfEven ((v * s + i * m) * 4 / 1024 * r * 100), rfl⟩

/-- Claim C7: omitting the rate argument is the same as passing 0.20. -/
theorem estimate_default_rate (v : ℤ) (s : ℚ) (i : ℤ) (m : ℚ) :
    estimate_uploadthing_cost v s i m = estimate_uploadthing_cost v s i m (20/100) := by
  norm_num

/-- Claim C8: the estimator is a pure function: the same arguments
always produce the same result. -/
theorem estimate_deterministic (v : ℤ) (s : ℚ) (i : ℤ) (m r : ℚ) :
    estimate_uploadthing_cost v s i m r = estimate_uploadthing_cost v s i m r := rfl

/-- Claim C9: the estimator has no reachable error path: with the
division modelled as fallible, every input (negative ones included)
yields a value. -/
theorem estimate_no_error (v : ℤ) (s : ℚ) (i : ℤ) (m r : ℚ) :
    estimate_uploadthing_cost_checked v s i m r =
      some (estimate_uploadthing_cost v s i m r) := by
  simp only [estimate_uploadthing_cost_checked]
  norm_num
  rfl

/-- Claim C10: swapping the video pair with the image pair leaves the
result unchanged. -/
theorem estimate_swap_categories (a : ℤ) (b : ℚ) (c : ℤ) (d r : ℚ) :
    estimate_uploadthing_cost a b c d r = estimate_uploadthing_cost c d a b r := by
  rw [estimate_eq, estimate_eq]
  exact congrArg round2 (by ring)

end UploadThing
